import Mathlib

/-!
Verification of the `filter_shard_map` wrapper (`src/equinox/_shard_map.py`)
and the `BatchNorm` layer (`src/equinox/nn/_batch_norm.py`) of the
lockwo/equinox repository, against its natural-language specification.

Shallow embedding notes.

* A JAX pytree is modelled as a finitely-branching tree whose leaves are
  either numeric arrays (modelled by an integer payload, since only the
  array/non-array distinction matters to the wrapper), arbitrary non-array
  "static" objects (modelled by a natural-number payload), or the Python
  value `None`, which the partition/combine collaborators use as the
  placeholder for an elided leaf.
* The tree-filtering collaborators `partition`/`combine`, the `Static`
  wrapper, `Partial` and `module_update_wrapper` live in equinox modules
  that are not part of the given sources; they are modelled from the spec
  (each such definition carries a doc comment saying so).
* `jax.shard_map` is an external collaborator.  The wrapper's call method
  is parameterised over the primitive (`Prim`), so that the configuration
  the wrapper passes to it is observable in theorems; the spec's
  single-shard model ("apply the inner function once") is
  `shard_map_model`.
-/

namespace EquinoxSpec

/-- A pytree leaf: a numeric array, an arbitrary non-array ("static")
object, or Python's `None` (used as the placeholder of the
partition/combine collaborators). -/
inductive Leaf : Type where
  | arr : Int → Leaf
  | obj : Nat → Leaf
  | none : Leaf
deriving DecidableEq, Repr

/-- `eqx.is_array`: only array leaves satisfy it (in particular
`is_array(None)` is false). -/
def is_array : Leaf → Bool
  | .arr _ => true
  | _ => false

mutual
/-- A JAX pytree with `Leaf` leaves.  An interior node models a
tuple/list/dict/module node of the Python tree. -/
inductive PyTree : Type where
  | leaf : Leaf → PyTree
  | node : TreeList → PyTree

/-- The ordered children of a pytree node. -/
inductive TreeList : Type where
  | nil : TreeList
  | cons : PyTree → TreeList → TreeList
end

open PyTree TreeList

mutual
/-- Modelled from the spec: `partition(tree, predicate) ->
(matching_tree_with_placeholders, non_matching_tree_with_placeholders)` —
splits a tree into the leaves satisfying the predicate and those that do
not, each elided position replaced by the `None` placeholder. -/
def partT (pred : Leaf → Bool) : PyTree → PyTree × PyTree
  | .leaf l =>
    if pred l then (.leaf l, .leaf Leaf.none) else (.leaf Leaf.none, .leaf l)
  | .node ts =>
    let p := partL pred ts
    (.node p.1, .node p.2)

/-- `partT` on a list of children. -/
def partL (pred : Leaf → Bool) : TreeList → TreeList × TreeList
  | .nil => (.nil, .nil)
  | .cons t ts =>
    let p := partT pred t
    let q := partL pred ts
    (.cons p.1 q.1, .cons p.2 q.2)
end

/-- Errors observable at the wrapper's boundary. -/
inductive Err : Type where
  | runtimeError : String → Err
  | treeMismatch : Err
  | primError : Nat → Err
deriving DecidableEq, Repr

mutual
/-- Modelled from the spec: `combine(tree_a, tree_b) -> merged_tree` —
placeholders in one tree filled from the corresponding position in the
other; structurally mismatched trees are a collaborator error. -/
def combT : PyTree → PyTree → Except Err PyTree
  | .leaf a, .leaf b => .ok (.leaf (if a = Leaf.none then b else a))
  | .node as, .node bs =>
    match combL as bs with
    | .ok cs => .ok (.node cs)
    | .error e => .error e
  | .leaf _, .node _ => .error Err.treeMismatch
  | .node _, .leaf _ => .error Err.treeMismatch

/-- `combT` on lists of children. -/
def combL : TreeList → TreeList → Except Err TreeList
  | .nil, .nil => .ok .nil
  | .cons a as, .cons b bs =>
    match combT a b, combL as bs with
    | .ok c, .ok cs => .ok (.cons c cs)
    | .error e, _ => .error e
    | .ok _, .error e => .error e
  | .nil, .cons _ _ => .error Err.treeMismatch
  | .cons _ _, .nil => .error Err.treeMismatch
end

mutual
/-- Recombining the two halves of a partition restores the original tree. -/
theorem combT_partT (pred : Leaf → Bool) :
    ∀ t : PyTree, combT (partT pred t).1 (partT pred t).2 = .ok t
  | .leaf l => by
    by_cases h : pred l
    · simp only [partT, h, if_pos, combT]
      by_cases hn : l = Leaf.none <;> simp [hn]
    · simp [partT, h, combT]
  | .node ts => by
    simp only [partT, combT, combL_partL pred ts]

/-- List version of `combT_partT`. -/
theorem combL_partL (pred : Leaf → Bool) :
    ∀ ts : TreeList, combL (partL pred ts).1 (partL pred ts).2 = .ok ts
  | .nil => by simp [partL, combL]
  | .cons t ts => by
    simp only [partL, combL, combT_partT pred t, combL_partL pred ts]
end

/-- Modelled from the spec: the Static Wrapper capability — "holds an
arbitrary opaque value as a single comparably-hashable/traceable unit";
`wrap(value)` is the constructor, `.value` the unwrapping accessor. -/
structure Static : Type where
  value : PyTree

/-- A `jax.sharding.PartitionSpec` (a list of mesh axis names; the empty
list is the empty, fully replicated spec), or a tuple of such spec trees,
as passed by the wrapper to the primitive. -/
inductive SpecTree : Type where
  | spec : List String → SpecTree
  | tuple : List SpecTree → SpecTree

/-- A device mesh, identified opaquely: the wrapper never inspects it. -/
def Mesh : Type := Nat

/-- The configuration record handed to the distributed-map primitive:
mesh (or `none` for ambient inference), `in_specs`, `out_specs`, the
axis-name restriction and the validation-strictness flag `check_vma`. -/
structure SMConfig : Type where
  mesh : Option Mesh
  in_specs : SpecTree
  out_specs : SpecTree
  axis_names : List String
  check_vma : Bool

/-- The type of the distributed-map primitive (`jax.shard_map`) as the
wrapper consumes it: it receives the inner single-argument function, the
configuration, and the single positional argument, and produces the inner
function's result pair (or an error of its own). -/
def Prim : Type :=
  (PyTree → Except Err (PyTree × Static)) → SMConfig → PyTree →
    Except Err (PyTree × Static)

/-- Modelled from the spec: the Distributed Map Primitive under the
spec's single-shard model — it "executes the function once per
shard/device-group"; with one shard it applies the inner function once to
its argument and performs no collective. -/
def shard_map_model : Prim := fun f _cfg x => f x

/-- `_ShardMapWrapper` (`src/equinox/_shard_map.py`): the immutable
wrapper instance holding the wrapped callable and the five configuration
values. The wrapped callable consumes the whole positional-argument tuple
(a pytree node) at once, modelling `self._fun(*_args)`. -/
structure ShardMapWrapper : Type where
  fn : PyTree → PyTree
  out_specs : SpecTree
  in_specs : SpecTree
  mesh : Option Mesh
  axis_names : List String
  check_vma : Bool

/-- The message of the keyword-argument `RuntimeError` raised by
`_ShardMapWrapper.__call__`. -/
def kwMsg : String :=
  "keyword arguments cannot be used with functions wrapped with " ++
    "filter_shard_map"

/-- `_ShardMapWrapper.__call__`, translated line by line: reject keyword
arguments, partition `args` by `is_array`, build `_fun_wrapper`, dispatch
through the primitive with the tupled specs, and recombine the dynamic
output with the unwrapped static output.  The primitive is a parameter so
that the dispatch is observable. -/
def ShardMapWrapper.call (w : ShardMapWrapper) (prim : Prim)
    (args : TreeList) (kwargs : List (String × PyTree)) :
    Except Err PyTree :=
  if kwargs.length ≠ 0 then
    .error (.runtimeError kwMsg)
  else
    let pa := partT is_array (.node args)
    let dynamic_args := pa.1
    let static_args := pa.2
    let fun_wrapper : PyTree → Except Err (PyTree × Static) :=
      fun dyn =>
        match combT dyn static_args with
        | .error e => .error e
        | .ok a =>
          let out := w.fn a
          let po := partT is_array out
          .ok (po.1, ⟨po.2⟩)
    match prim fun_wrapper
        ⟨w.mesh, .tuple [w.in_specs], .tuple [w.out_specs, .spec []],
          w.axis_names, w.check_vma⟩ dynamic_args with
    | .error e => .error e
    | .ok (dynamic_out, static_out) => combT dynamic_out static_out.value

/-- Modelled from the spec: `bind(owner)` — "a callable equivalent to
`invoke` but with `owner` implicitly prepended as the first positional
argument on every subsequent call" (equinox's `Partial(self, instance)`,
whose module is not among the given sources). -/
structure BoundCallable : Type where
  func : ShardMapWrapper
  bound_args : TreeList

/-- Concatenation of argument tuples. -/
def appendTL : TreeList → TreeList → TreeList
  | .nil, ys => ys
  | .cons x xs, ys => .cons x (appendTL xs ys)

/-- Calling the bound callable: the bound arguments are prepended to the
call's positional arguments and the underlying wrapper is invoked. -/
def BoundCallable.call (b : BoundCallable) (prim : Prim)
    (args : TreeList) (kwargs : List (String × PyTree)) :
    Except Err PyTree :=
  b.func.call prim (appendTL b.bound_args args) kwargs

/-- The result of the descriptor protocol on the wrapper: either the
wrapper itself (class access) or a bound callable (instance access). -/
inductive GetResult : Type where
  | self : ShardMapWrapper → GetResult
  | bound : BoundCallable → GetResult

/-- `_ShardMapWrapper.__get__`: return the wrapper itself when reached
through the class (`instance is None`), otherwise `Partial(self,
instance)`. -/
def ShardMapWrapper.get (w : ShardMapWrapper) (inst : Option PyTree) :
    GetResult :=
  match inst with
  | .none => .self w
  | .some i => .bound ⟨w, .cons i .nil⟩

mutual
/-- The shape of a pytree: every leaf value erased (two trees have the
same shape iff `shapeT` agrees). -/
def shapeT : PyTree → PyTree
  | .leaf _ => .leaf Leaf.none
  | .node ts => .node (shapeL ts)

/-- `shapeT` on children. -/
def shapeL : TreeList → TreeList
  | .nil => .nil
  | .cons t ts => .cons (shapeT t) (shapeL ts)
end

mutual
/-- The non-array ("static") leaves of a pytree, in order. -/
def staticLeavesT : PyTree → List Leaf
  | .leaf l => if is_array l then [] else [l]
  | .node ts => staticLeavesL ts

/-- `staticLeavesT` on children. -/
def staticLeavesL : TreeList → List Leaf
  | .nil => []
  | .cons t ts => staticLeavesT t ++ staticLeavesL ts
end

/-- The inner single-argument function exactly as the spec's Step 2
describes it: recombine the dynamic arguments with the captured static
arguments, invoke the wrapped callable, partition its return value, wrap
the static part in `Static` and return the pair. -/
def specInner (w : ShardMapWrapper) (static_args : PyTree) :
    PyTree → Except Err (PyTree × Static) :=
  fun dynamic_args =>
    match combT dynamic_args static_args with
    | .error e => .error e
    | .ok full_args =>
      let out := w.fn full_args
      let po := partT is_array out
      .ok (po.1, Static.mk po.2)

/-- The dispatch configuration exactly as the spec's Step 3 describes it:
the configured mesh, `in_specs` a one-tuple wrapping the configured
`in_specs`, `out_specs` the two-tuple of the configured `out_specs` and
an empty fully-replicated spec for the static-metadata slot, the
configured axis names and `check_vma` flag. -/
def specDispatch (w : ShardMapWrapper) : SMConfig :=
  ⟨w.mesh, .tuple [w.in_specs], .tuple [w.out_specs, .spec []],
    w.axis_names, w.check_vma⟩

/-- Shared lemma: with no keyword arguments, the wrapper's call is the
primitive applied to the spec-described inner function, configuration and
partitioned dynamic arguments, post-composed with the final recombine. -/
theorem call_eq_prim (w : ShardMapWrapper) (prim : Prim) (args : TreeList) :
    w.call prim args [] =
      match prim (specInner w (partT is_array (.node args)).2)
          (specDispatch w) (partT is_array (.node args)).1 with
      | .error e => .error e
      | .ok (d, s) => combT d s.value := rfl

/-- Shared lemma: any non-empty keyword-argument list makes the call
fail with the keyword-argument `RuntimeError`, whatever the primitive. -/
theorem call_kw_error (w : ShardMapWrapper) (prim : Prim) (args : TreeList)
    (kwargs : List (String × PyTree)) (hk : kwargs ≠ []) :
    w.call prim args kwargs = .error (.runtimeError kwMsg) := by
  unfold ShardMapWrapper.call
  rw [if_pos (fun h => hk (List.length_eq_zero.mp h))]

/-- Shared lemma: under the single-shard model of the primitive, the
wrapper returns exactly the wrapped function's direct result. -/
theorem call_model (w : ShardMapWrapper) (args : TreeList) :
    w.call shard_map_model args [] = .ok (w.fn (.node args)) := by
  rw [call_eq_prim]
  simp only [shard_map_model, specInner, combT_partT]

/-- Modelled from the spec: the Function-Identity Forwarding collaborator
(`module_update_wrapper`, not among the given sources) — "copies
name/doc/signature for introspection; no behavioral effect"; behaviourally
it returns the wrapper unchanged. -/
def module_update_wrapper (w : ShardMapWrapper) : ShardMapWrapper := w

/-- The result of `filter_shard_map`: either a wrapper (callable given
directly) or a one-argument factory awaiting the callable. -/
inductive FSMResult : Type where
  | wrapper : ShardMapWrapper → FSMResult
  | factory : ((PyTree → PyTree) → FSMResult) → FSMResult

/-- `filter_shard_map` (`src/equinox/_shard_map.py`): the sentinel
"callable not supplied" is `Option.none`; in that case a partial
application awaiting the callable is returned, otherwise the wrapper is
built and passed through `module_update_wrapper`.  Defaults as in the
source signature: `mesh` is `Option.none` (ambient inference),
`axis_names` the empty set (meaning all mesh axes, per the docstring),
`check_vma` true. -/
def filter_shard_map (f : Option (PyTree → PyTree)) (out_specs : SpecTree)
    (in_specs : SpecTree) (mesh : Option Mesh := Option.none)
    (axis_names : List String := []) (check_vma : Bool := true) :
    FSMResult :=
  match f with
  | .none => .factory (fun g => .wrapper (module_update_wrapper
      ⟨g, out_specs, in_specs, mesh, axis_names, check_vma⟩))
  | .some g => .wrapper (module_update_wrapper
      ⟨g, out_specs, in_specs, mesh, axis_names, check_vma⟩)

/-- Claim C1: under the single-shard model of the distributed-map
primitive, invoking the wrapper returns a result equal to the direct call
of the wrapped function — in particular of the same tree shape and with
the same non-array leaves — and the argument-side partition/combine round
trip reconstructs the arguments unchanged. -/
theorem claim_C1_nonarray_passthrough (w : ShardMapWrapper)
    (args : TreeList) :
    ∃ r, w.call shard_map_model args [] = .ok r
      ∧ r = w.fn (.node args)
      ∧ shapeT r = shapeT (w.fn (.node args))
      ∧ staticLeavesT r = staticLeavesT (w.fn (.node args))
      ∧ combT (partT is_array (.node args)).1 (partT is_array (.node args)).2
          = .ok (.node args) :=
  ⟨w.fn (.node args), call_model w args, rfl, rfl, rfl, combT_partT _ _⟩

/-- Claim C2: on every invocation (with no keyword arguments) the wrapper
is exactly the distributed-map primitive applied to the spec-described
inner function (recombine with captured static args, call the wrapped
function, partition, wrap in `Static`), the spec-described configuration
(mesh; one-tupled `in_specs`; `out_specs` paired with an empty replicated
spec; axis names; `check_vma`), and the partitioned dynamic arguments as
the single positional argument, followed by the final recombine. -/
theorem claim_C2_dispatch_shape (w : ShardMapWrapper) (prim : Prim)
    (args : TreeList) :
    w.call prim args [] =
      match prim (specInner w (partT is_array (.node args)).2)
          (specDispatch w) (partT is_array (.node args)).1 with
      | .error e => .error e
      | .ok (d, s) => combT d s.value := rfl

/-- Claim C3: any non-empty keyword-argument set makes the call fail with
the invalid-invocation `RuntimeError`, for every primitive (hence before
the primitive is ever entered) and every positional-argument tuple; with
no keyword arguments no error at all is raised under the single-shard
model. -/
theorem claim_C3_kwargs_rejected (w : ShardMapWrapper) (args : TreeList) :
    (∀ (prim : Prim) (kwargs : List (String × PyTree)), kwargs ≠ [] →
        w.call prim args kwargs = .error (.runtimeError kwMsg))
    ∧ ∃ r, w.call shard_map_model args [] = .ok r :=
  ⟨fun prim kwargs hk => call_kw_error w prim args kwargs hk,
    ⟨w.fn (.node args), call_model w args⟩⟩

/-- A concrete wrapper instance, used by the closed witnesses. -/
def w0 : ShardMapWrapper :=
  ⟨fun t => t, .spec [], .spec [], Option.none, [], true⟩

/-- Witness for claim C3 at a concrete wrapper, argument list and
keyword argument. -/
theorem claim_C3_witness :
    w0.call shard_map_model .nil [("a", .leaf (Leaf.obj 0))]
        = .error (.runtimeError kwMsg)
    ∧ ∃ r, w0.call shard_map_model .nil [] = .ok r :=
  ⟨(claim_C3_kwargs_rejected w0 .nil).1 shard_map_model
      [("a", .leaf (Leaf.obj 0))] (by simp),
    (claim_C3_kwargs_rejected w0 .nil).2⟩

/-- Claim C4: class access returns the wrapper itself; instance access
returns a bound callable holding the unchanged wrapper and the owner;
and two bound callables from two distinct owners each invoke the wrapper
with their own owner prepended as the first positional argument. -/
theorem claim_C4_method_binding (w : ShardMapWrapper) :
    w.get Option.none = .self w
    ∧ (∀ owner : PyTree, w.get (.some owner) = .bound ⟨w, .cons owner .nil⟩)
    ∧ (∀ (owner1 owner2 : PyTree) (prim : Prim) (args : TreeList)
        (kwargs : List (String × PyTree)),
        BoundCallable.call ⟨w, .cons owner1 .nil⟩ prim args kwargs
            = w.call prim (.cons owner1 args) kwargs
        ∧ BoundCallable.call ⟨w, .cons owner2 .nil⟩ prim args kwargs
            = w.call prim (.cons owner2 args) kwargs) :=
  ⟨rfl, fun _ => rfl, fun _ _ _ _ _ => ⟨rfl, rfl⟩⟩

/-- Claim C5: calling the factory without a callable returns a
one-argument function whose later application equals calling the factory
directly with that callable; the produced wrapper carries exactly the
given configuration with no validation; and the defaults are
`mesh = Option.none` (ambient), empty `axis_names` (all mesh axes) and
`check_vma = true`. -/
theorem claim_C5_factory_forms (o i : SpecTree) (m : Option Mesh)
    (a : List String) (c : Bool) (g : PyTree → PyTree) :
    filter_shard_map Option.none o i m a c
        = .factory (fun f => filter_shard_map (.some f) o i m a c)
    ∧ filter_shard_map (.some g) o i m a c = .wrapper ⟨g, o, i, m, a, c⟩
    ∧ filter_shard_map (.some g) o i
        = filter_shard_map (.some g) o i Option.none [] true :=
  ⟨rfl, rfl, rfl⟩

/-- Claim C6: the wrapper's only own validation is the keyword-argument
rejection; an error returned by the distributed-map primitive propagates
to the caller unmodified; and any error of a keyword-free call is either
the primitive's own error or the final recombine's error, unmodified. -/
theorem claim_C6_error_propagation (w : ShardMapWrapper) (prim : Prim)
    (args : TreeList) :
    (∀ kwargs : List (String × PyTree), kwargs ≠ [] →
        w.call prim args kwargs = .error (.runtimeError kwMsg))
    ∧ (∀ e : Err,
        prim (specInner w (partT is_array (.node args)).2) (specDispatch w)
            (partT is_array (.node args)).1 = .error e →
        w.call prim args [] = .error e)
    ∧ (∀ e : Err, w.call prim args [] = .error e →
        prim (specInner w (partT is_array (.node args)).2) (specDispatch w)
            (partT is_array (.node args)).1 = .error e
        ∨ ∃ p, prim (specInner w (partT is_array (.node args)).2)
              (specDispatch w) (partT is_array (.node args)).1 = .ok p
            ∧ combT p.1 p.2.value = .error e) := by
  refine ⟨fun kwargs hk => call_kw_error w prim args kwargs hk, ?_, ?_⟩
  · intro e he
    rw [call_eq_prim, he]
  · intro e he
    rw [call_eq_prim] at he
    cases hp : prim (specInner w (partT is_array (.node args)).2)
        (specDispatch w) (partT is_array (.node args)).1 with
    | error e' =>
      rw [hp] at he
      have h2 : (Except.error e' : Except Err PyTree) = .error e := he
      have hee : e' = e := Except.error.inj h2
      exact Or.inl (by rw [hee])
    | ok p =>
      rw [hp] at he
      obtain ⟨d, s⟩ := p
      refine Or.inr ⟨(d, s), rfl, ?_⟩
      exact he

/-- A primitive that always fails, used by the C6 witness. -/
def prim_fail : Prim := fun _ _ _ => .error (.primError 7)

/-- Witness for claim C6: a concrete failing primitive's error surfaces
unmodified from a concrete call. -/
theorem claim_C6_witness :
    w0.call prim_fail .nil [] = .error (.primError 7) :=
  (claim_C6_error_propagation w0 prim_fail .nil).2.1 (.primError 7) rfl

/-! ### BatchNorm (`src/equinox/nn/_batch_norm.py`)

Numeric model: exact rationals stand in for floating-point arrays; an
input is a list of channels, each channel a list of rationals (the
flattened batch/spatial values seen by `_stats` after `vmap` over the
channel axis).  `lax.pmean` over the named axis is taken in its
single-device semantics (the identity), and `jnp.sqrt` — a transcendental
floating-point primitive — is an explicit function parameter `sq` of the
call.  The `State`/`StateIndex` container lives outside the given
sources. -/

/-- The `mode` field: `"ema"` or `"batch"`. -/
inductive BNMode : Type where
  | ema : BNMode
  | batch : BNMode
deriving DecidableEq, Repr

/-- Modelled from the spec: the external State container — "a keyed slot
holding mutable data, get/set by key", "treated as a persistent/immutable
handle threaded explicitly through calls".  Specialised to the four slots
a `BatchNorm` layer registers (`ema_first_time_index`, `ema_state_index`,
`batch_counter`, `batch_state_index`); `get` is field access and `set` is
a functional record update producing the new handle. -/
structure State : Type where
  ema_first_time : Bool
  ema_stats : List ℚ × List ℚ
  batch_counter : ℕ
  batch_stats : (List ℚ × List ℚ) × (List ℚ × List ℚ)
deriving DecidableEq, Repr

/-- The `BatchNorm` layer's fields (state indices are implicit in the
`State` model; `axis_name` is dropped because `pmean` is modelled in its
single-device semantics). -/
structure BatchNorm : Type where
  weight : Option (List ℚ)
  bias : Option (List ℚ)
  inference : Bool
  input_size : ℕ
  eps : ℚ
  channelwise_affine : Bool
  momentum : ℚ
  mode : BNMode

/-- Sum of a list of rationals. -/
def listSum (l : List ℚ) : ℚ := l.foldr (· + ·) 0

/-- `jnp.mean` over a flattened channel. -/
def listMean (y : List ℚ) : ℚ := listSum y / (y.length : ℚ)

/-- `_stats` of `BatchNorm.__call__`: per-channel mean and variance
(with `lax.pmean` the identity on a single device, conjugation the
identity on reals, and the `jnp.maximum(0.0, var)` clamp). -/
def bn_stats (y : List ℚ) : ℚ × ℚ :=
  let mean := listMean y
  let var := listMean (y.map fun a => (a - mean) * (a - mean))
  (mean, max 0 var)

/-- Three-list pointwise zip, for the channelwise `jax.vmap`s. -/
def zipWith3 {α β γ δ : Type} (f : α → β → γ → δ) :
    List α → List β → List γ → List δ
  | a :: as, b :: bs, c :: cs => f a b c :: zipWith3 f as bs cs
  | _, _, _ => []

/-- `_norm` of `BatchNorm.__call__`, vmapped over channels: normalise
each channel by the given mean/variance, then apply the channelwise
affine transform when configured. -/
def bn_norm (bn : BatchNorm) (sq : ℚ → ℚ) (x : List (List ℚ))
    (mean variance : List ℚ) : List (List ℚ) :=
  let base := zipWith3
    (fun y m v => y.map fun a => (a - m) / sq (v + bn.eps)) x mean variance
  if bn.channelwise_affine then
    match bn.weight, bn.bias with
    | .some w, .some b =>
      zipWith3 (fun ch wi bi => ch.map fun o => o * wi + bi) base w b
    | _, _ => base
  else
    base

/-- `BatchNorm.__call__`, translated branch by branch.  Returns the
normalised output and the updated state handle. -/
def BatchNorm.call (bn : BatchNorm) (sq : ℚ → ℚ) (x : List (List ℚ))
    (state : State) (inference? : Option Bool) :
    List (List ℚ) × State :=
  let inference := inference?.getD bn.inference
  match bn.mode with
  | .ema =>
    if inference then
      let running_mean := state.ema_stats.1
      let running_var := state.ema_stats.2
      (bn_norm bn sq x running_mean running_var, state)
    else
      let first_time := state.ema_first_time
      let state1 : State := { state with ema_first_time := false }
      let bs := x.map bn_stats
      let batch_mean := bs.map Prod.fst
      let batch_var := bs.map Prod.snd
      let running_mean := state1.ema_stats.1
      let running_var := state1.ema_stats.2
      let momentum := bn.momentum
      let running_mean := List.zipWith
        (fun b r => (1 - momentum) * b + momentum * r) batch_mean running_mean
      let running_var := List.zipWith
        (fun b r => (1 - momentum) * b + momentum * r) batch_var running_var
      let running_mean := if first_time then batch_mean else running_mean
      let running_var := if first_time then batch_var else running_var
      let state2 : State :=
        { state1 with ema_stats := (running_mean, running_var) }
      (bn_norm bn sq x running_mean running_var, state2)
  | .batch =>
    if inference then
      let mean := state.batch_stats.2.1
      let variance := state.batch_stats.2.2
      (bn_norm bn sq x mean variance, state)
    else
      let bs := x.map bn_stats
      let batch_mean := bs.map Prod.fst
      let batch_var := bs.map Prod.snd
      let counter := state.batch_counter
      let hidden_mean := state.batch_stats.1.1
      let hidden_var := state.batch_stats.1.2
      let decay := bn.momentum
      let new_hidden_mean := List.zipWith
        (fun h b => h * decay + b * (1 - decay)) hidden_mean batch_mean
      let new_hidden_var := List.zipWith
        (fun h b => h * decay + b * (1 - decay)) hidden_var batch_var
      let new_counter := counter + 1
      let decay_power := decay ^ new_counter
      let new_running_mean := new_hidden_mean.map
        (fun h => h / (1 - decay_power))
      let new_running_var := new_hidden_var.map
        (fun h => h / (1 - decay_power))
      let state1 : State := { state with batch_counter := new_counter }
      let state2 : State := { state1 with batch_stats :=
        ((new_hidden_mean, new_hidden_var),
         (new_running_mean, new_running_var)) }
      (bn_norm bn sq x batch_mean batch_var, state2)

/-- Claim C7: in `"batch"` mode with inference resolving to false, the
counter is incremented, the hidden statistics become
`hidden * decay + batch * (1 - decay)`, the running statistics are the
new hidden values divided by `1 - decay ^ new_counter` (no further
warmup correction), and the output is normalised with the batch
statistics, not the running ones. -/
theorem claim_C7_batch_training_update (bn : BatchNorm) (sq : ℚ → ℚ)
    (x : List (List ℚ)) (st : State) (inference? : Option Bool)
    (hmode : bn.mode = BNMode.batch)
    (hinf : inference?.getD bn.inference = false) :
    (bn.call sq x st inference?).2.batch_counter = st.batch_counter + 1
    ∧ (bn.call sq x st inference?).2.batch_stats =
        ((List.zipWith (fun h b => h * bn.momentum + b * (1 - bn.momentum))
            st.batch_stats.1.1 ((x.map bn_stats).map Prod.fst),
          List.zipWith (fun h b => h * bn.momentum + b * (1 - bn.momentum))
            st.batch_stats.1.2 ((x.map bn_stats).map Prod.snd)),
         ((List.zipWith (fun h b => h * bn.momentum + b * (1 - bn.momentum))
            st.batch_stats.1.1 ((x.map bn_stats).map Prod.fst)).map
              (fun h => h / (1 - bn.momentum ^ (st.batch_counter + 1))),
          (List.zipWith (fun h b => h * bn.momentum + b * (1 - bn.momentum))
            st.batch_stats.1.2 ((x.map bn_stats).map Prod.snd)).map
              (fun h => h / (1 - bn.momentum ^ (st.batch_counter + 1)))))
    ∧ (bn.call sq x st inference?).1 =
        bn_norm bn sq x ((x.map bn_stats).map Prod.fst)
          ((x.map bn_stats).map Prod.snd) := by
  simp [BatchNorm.call, hmode, hinf]

/-- Claim C8: every training call (inference resolving to false) in
either mode returns, as the second component, the incoming state handle
with exactly its own slots functionally updated — the update reads the
incoming state's slots and leaves all other slots unchanged. -/
theorem claim_C8_state_threading (bn : BatchNorm) (sq : ℚ → ℚ)
    (x : List (List ℚ)) (st : State) (inference? : Option Bool)
    (hinf : inference?.getD bn.inference = false) :
    (bn.mode = BNMode.batch →
      (bn.call sq x st inference?).2 =
        { st with
            batch_counter := st.batch_counter + 1,
            batch_stats :=
              ((List.zipWith
                  (fun h b => h * bn.momentum + b * (1 - bn.momentum))
                  st.batch_stats.1.1 ((x.map bn_stats).map Prod.fst),
                List.zipWith
                  (fun h b => h * bn.momentum + b * (1 - bn.momentum))
                  st.batch_stats.1.2 ((x.map bn_stats).map Prod.snd)),
               ((List.zipWith
                  (fun h b => h * bn.momentum + b * (1 - bn.momentum))
                  st.batch_stats.1.1 ((x.map bn_stats).map Prod.fst)).map
                    (fun h => h / (1 - bn.momentum ^ (st.batch_counter + 1))),
                (List.zipWith
                  (fun h b => h * bn.momentum + b * (1 - bn.momentum))
                  st.batch_stats.1.2 ((x.map bn_stats).map Prod.snd)).map
                    (fun h =>
                      h / (1 - bn.momentum ^ (st.batch_counter + 1))))) })
    ∧ (bn.mode = BNMode.ema →
      (bn.call sq x st inference?).2 =
        { st with
            ema_first_time := false,
            ema_stats :=
              (if st.ema_first_time then (x.map bn_stats).map Prod.fst
               else List.zipWith
                 (fun b r => (1 - bn.momentum) * b + bn.momentum * r)
                 ((x.map bn_stats).map Prod.fst) st.ema_stats.1,
               if st.ema_first_time then (x.map bn_stats).map Prod.snd
               else List.zipWith
                 (fun b r => (1 - bn.momentum) * b + bn.momentum * r)
                 ((x.map bn_stats).map Prod.snd) st.ema_stats.2) }) := by
  constructor <;> intro hmode <;> simp [BatchNorm.call, hmode, hinf]

/-- Claim C9: when inference resolves to true the returned state is
exactly the input state, in both modes: no slot changes. -/
theorem claim_C9_inference_preserves_state (bn : BatchNorm) (sq : ℚ → ℚ)
    (x : List (List ℚ)) (st : State) (inference? : Option Bool)
    (hinf : inference?.getD bn.inference = true) :
    (bn.call sq x st inference?).2 = st := by
  cases hm : bn.mode <;> simp [BatchNorm.call, hm, hinf]

/-- Claim C10: in `"ema"` mode training, on a first-time call the stored
running statistics become exactly the batch statistics (no mention of the
momentum) and the first-time flag is cleared; on a later call they become
the momentum-weighted combination
`(1 - momentum) * batch + momentum * running`. -/
theorem claim_C10_ema_first_time (bn : BatchNorm) (sq : ℚ → ℚ)
    (x : List (List ℚ)) (st : State) (inference? : Option Bool)
    (hmode : bn.mode = BNMode.ema)
    (hinf : inference?.getD bn.inference = false) :
    (st.ema_first_time = true →
      (bn.call sq x st inference?).2.ema_stats =
          ((x.map bn_stats).map Prod.fst, (x.map bn_stats).map Prod.snd)
      ∧ (bn.call sq x st inference?).2.ema_first_time = false)
    ∧ (st.ema_first_time = false →
      (bn.call sq x st inference?).2.ema_stats =
        (List.zipWith (fun b r => (1 - bn.momentum) * b + bn.momentum * r)
            ((x.map bn_stats).map Prod.fst) st.ema_stats.1,
         List.zipWith (fun b r => (1 - bn.momentum) * b + bn.momentum * r)
            ((x.map bn_stats).map Prod.snd) st.ema_stats.2)) := by
  constructor <;> intro hft <;> simp [BatchNorm.call, hmode, hinf, hft]

/-- The identity as the abstract square-root parameter of the witnesses. -/
def sq0 : ℚ → ℚ := fun v => v

/-- A concrete `"batch"`-mode layer (momentum 1/2, eps 0, no affine). -/
def bn_batch0 : BatchNorm :=
  ⟨Option.none, Option.none, false, 1, 0, false, 1/2, BNMode.batch⟩

/-- A concrete `"ema"`-mode layer (momentum 1/2, eps 0, no affine). -/
def bn_ema0 : BatchNorm :=
  ⟨Option.none, Option.none, false, 1, 0, false, 1/2, BNMode.ema⟩

/-- A concrete state handle (first-time flag set, counter 0). -/
def st_bn0 : State := ⟨true, ([0], [1]), 0, (([0], [1]), ([0], [1]))⟩

/-- A concrete single-channel input whose batch mean and variance are
both 1. -/
def x_bn0 : List (List ℚ) := [[0, 2]]

/-- Witness for claim C7 at the concrete batch-mode layer: the counter
becomes 1, hidden statistics (1/2, 1), running statistics (1, 2), and the
output is normalised by the batch statistics. -/
theorem claim_C7_witness :
    bn_batch0.mode = BNMode.batch
    ∧ (Option.some false).getD bn_batch0.inference = false
    ∧ (bn_batch0.call sq0 x_bn0 st_bn0 (Option.some false)).2.batch_counter
        = 1
    ∧ (bn_batch0.call sq0 x_bn0 st_bn0 (Option.some false)).2.batch_stats
        = ((([(1 : ℚ)/2], [1]), ([1], [2])))
    ∧ (bn_batch0.call sq0 x_bn0 st_bn0 (Option.some false)).1
        = [[-1, 1]] := by
  have h := claim_C7_batch_training_update bn_batch0 sq0 x_bn0 st_bn0
    (Option.some false) rfl rfl
  refine ⟨rfl, rfl, h.1, ?_, ?_⟩
  · rw [h.2.1]; norm_num [bn_stats, listMean, listSum, bn_norm, zipWith3, sq0, bn_batch0, bn_ema0, st_bn0, x_bn0]
  · rw [h.2.2]; norm_num [bn_stats, listMean, listSum, bn_norm, zipWith3, sq0, bn_batch0, bn_ema0, st_bn0, x_bn0]

/-- Witness for claim C8 at the concrete layers: the returned state is
the input handle with only the mode's own slots updated. -/
theorem claim_C8_witness :
    (Option.some false).getD bn_batch0.inference = false
    ∧ (bn_batch0.call sq0 x_bn0 st_bn0 (Option.some false)).2
        = { st_bn0 with
              batch_counter := 1,
              batch_stats := ((([(1 : ℚ)/2], [1]), ([1], [2]))) }
    ∧ (bn_ema0.call sq0 x_bn0 st_bn0 (Option.some false)).2
        = { st_bn0 with
              ema_first_time := false,
              ema_stats := (([1], [1]) : List ℚ × List ℚ) } := by
  refine ⟨rfl, ?_, ?_⟩
  · rw [(claim_C8_state_threading bn_batch0 sq0 x_bn0 st_bn0
      (Option.some false) rfl).1 rfl]
    norm_num [bn_stats, listMean, listSum, sq0, bn_batch0, st_bn0, x_bn0]
  · rw [(claim_C8_state_threading bn_ema0 sq0 x_bn0 st_bn0
      (Option.some false) rfl).2 rfl]
    norm_num [bn_stats, listMean, listSum, sq0, bn_ema0, st_bn0, x_bn0]

/-- Witness for claim C9 at concrete inputs, in both modes. -/
theorem claim_C9_witness :
    (Option.some true).getD bn_batch0.inference = true
    ∧ (bn_batch0.call sq0 x_bn0 st_bn0 (Option.some true)).2 = st_bn0
    ∧ (bn_ema0.call sq0 x_bn0 st_bn0 (Option.some true)).2 = st_bn0 :=
  ⟨rfl,
    claim_C9_inference_preserves_state bn_batch0 sq0 x_bn0 st_bn0
      (Option.some true) rfl,
    claim_C9_inference_preserves_state bn_ema0 sq0 x_bn0 st_bn0
      (Option.some true) rfl⟩

/-- Witness for claim C10 at the concrete ema-mode layer: on the
first-time state the running statistics become the batch statistics
(1, 1) and the flag clears; on a non-first-time state they become the
momentum-weighted combination (1/2, 1). -/
theorem claim_C10_witness :
    bn_ema0.mode = BNMode.ema
    ∧ st_bn0.ema_first_time = true
    ∧ (bn_ema0.call sq0 x_bn0 st_bn0 (Option.some false)).2.ema_stats
        = (([1], [1]) : List ℚ × List ℚ)
    ∧ (bn_ema0.call sq0 x_bn0 st_bn0 (Option.some false)).2.ema_first_time
        = false
    ∧ (bn_ema0.call sq0 x_bn0 { st_bn0 with ema_first_time := false }
        (Option.some false)).2.ema_stats
        = (([1/2], [1]) : List ℚ × List ℚ) := by
  have h1 := (claim_C10_ema_first_time bn_ema0 sq0 x_bn0 st_bn0
    (Option.some false) rfl rfl).1 rfl
  have h2 := (claim_C10_ema_first_time bn_ema0 sq0 x_bn0
    { st_bn0 with ema_first_time := false } (Option.some false) rfl rfl).2 rfl
  refine ⟨rfl, rfl, ?_, h1.2, ?_⟩
  · rw [h1.1]; norm_num [bn_stats, listMean, listSum, bn_norm, zipWith3, sq0, bn_batch0, bn_ema0, st_bn0, x_bn0]
  · rw [h2]; norm_num [bn_stats, listMean, listSum, bn_norm, zipWith3, sq0, bn_batch0, bn_ema0, st_bn0, x_bn0]

end EquinoxSpec
